import Mathlib

/-!
Verification of the metrics computation engine of the sector-analysis
repository (`calculations.py`, `data_validation.py`, `config.py`).

Modelling conventions (shallow embedding):

* Prices, returns and dates are exact rationals / integers; IEEE floating
  point arithmetic is idealised as exact arithmetic.  The special float
  values that the code's semantics depend on (`nan` from 0/0 or an
  undersized sample standard deviation, `inf` from x/0) are modelled
  explicitly by dedicated constructors.
* A `pandas.Series` keyed by ticker becomes a `List (String × _)`;
  a `pandas.DataFrame` becomes a `DF` (a shared date index plus one list
  of values per ticker column, column-major).
* Quantities whose exact value involves a square root (standard
  deviations, Pearson correlations) are represented exactly in the form
  `a·√b` by the constructor `RV.sq a b` (`b ≥ 0` in every construction);
  plain finite floats are `RV.sq q 1`.  The predicate `RV.isOne` decides
  whether `a·√b = 1`, which lemma `isOne_iff_real` justifies against the
  real numbers.
* Python's / numpy's float power `(1 + total_return) ** (252 / n)` is not
  a rational-valued operation, so the metrics evaluator is parametrised
  by an arbitrary function `pw : ℚ → ℚ → FV` standing for the platform
  power; every general theorem holds for all `pw`.  For concrete
  evaluations we instantiate `pw` with `pyPow`, which agrees with the
  platform power at the (exactly representable) points where those
  evaluations use it.
-/

/-- An IEEE-double value class, with the finite value kept exact:
every finite float is a rational number. -/
inductive FV where
  | num (q : ℚ)
  | nan
  | pinf
  | ninf
deriving DecidableEq, Repr

/-- An exact real value of the form `a·√b` (with `0 ≤ b` in every
construction of this development), or one of the special float values.
`RV.sq q 1` is the plain number `q`. -/
inductive RV where
  | sq (a b : ℚ)
  | nan
  | pinf
  | ninf
deriving DecidableEq, Repr

namespace FV

/-- Model of `x - 1` on float values (used for the `- 1` after the power in the
annualized-return formula). -/
def sub1 : FV → FV
  | num q => num (q - 1)
  | nan => nan
  | pinf => pinf
  | ninf => ninf

/-- Inject a float value into the exact-value type. -/
def toRV : FV → RV
  | num q => RV.sq q 1
  | nan => RV.nan
  | pinf => RV.pinf
  | ninf => RV.ninf

end FV

namespace RV

/-- Whether the represented value is exactly the number 0
(the float `== 0` test; `nan == 0` and `inf == 0` are false). -/
def eqZero : RV → Bool
  | sq a b => decide (a = 0) || decide (b = 0)
  | _ => false

/-- Whether the represented value is exactly the number 1:
`a·√b = 1` iff `0 < a` and `a²·b = 1`. -/
def isOne : RV → Bool
  | sq a b => decide (0 < a) && decide (a ^ 2 * b = 1)
  | _ => false

/-- IEEE division on represented values (no signed zero):
`x/0` is `nan` when `x` is zero or `nan`, `±inf` by the sign of `x`
otherwise; `x/±inf` is `0`; `±inf/±inf` is `nan`.
For nonzero denominators, `(a√b)/(c√d) = (a/(cd))·√(bd)`. -/
def div : RV → RV → RV
  | nan, _ => nan
  | sq a b, sq c d =>
      if c = 0 ∨ d = 0 then
        if a = 0 ∨ b = 0 then nan else if 0 < a then pinf else ninf
      else sq (a / (c * d)) (b * d)
  | sq _ _, nan => nan
  | sq _ _, pinf => sq 0 1
  | sq _ _, ninf => sq 0 1
  | pinf, sq c d => if c = 0 ∨ d = 0 then pinf else if 0 < c then pinf else ninf
  | pinf, nan => nan
  | pinf, pinf => nan
  | pinf, ninf => nan
  | ninf, sq c d => if c = 0 ∨ d = 0 then ninf else if 0 < c then ninf else pinf
  | ninf, nan => nan
  | ninf, pinf => nan
  | ninf, ninf => nan

end RV

/-! ## Per-column return calculations (`calculations.py`) -/

/-- Model of `df.pct_change().fillna(0)` on one price column
(`calculate_daily_returns`, calculations.py line 15): the first entry is
the filled-in 0, entry `t+1` is `p[t+1]/p[t] - 1`. -/
def dailyCol (ps : List ℚ) : List ℚ :=
  match ps with
  | [] => []
  | _ :: t => 0 :: (ps.zip t).map (fun ab => ab.2 / ab.1 - 1)

/-- Model of `sliced.pct_change().dropna()` on one price column
(calculations.py line 85): the all-NaN first row is dropped, leaving the
`n - 1` simple returns. -/
def retsCol (ps : List ℚ) : List ℚ :=
  match ps with
  | [] => []
  | _ :: t => (ps.zip t).map (fun ab => ab.2 / ab.1 - 1)

/-- Running product with accumulator (`cumprod`). -/
def cumprodFrom (acc : ℚ) : List ℚ → List ℚ
  | [] => []
  | x :: t => (acc * x) :: cumprodFrom (acc * x) t

/-- Model of `xs.cumprod()` on one column. -/
def cumprod (xs : List ℚ) : List ℚ := cumprodFrom 1 xs

/-- Model of `(1 + df_returns).cumprod() - 1` on one returns column
(`calculate_cumulative_returns`, calculations.py line 36). -/
def cumCol (rs : List ℚ) : List ℚ :=
  (cumprod (rs.map (fun r => 1 + r))).map (fun x => x - 1)

/-! ## Statistics of a sample (exact) -/

/-- Mean of a list of rationals (`sum/len`; junk 0 on the empty list,
which every use guards against). -/
def listMean (xs : List ℚ) : ℚ := xs.sum / (xs.length : ℚ)

/-- Sum of products of deviations from the means,
`Σ (x - x̄)(y - ȳ)` over `xs.zip ys`. -/
def sCross (xs ys : List ℚ) : ℚ :=
  ((xs.zip ys).map (fun p => (p.1 - listMean xs) * (p.2 - listMean ys))).sum

/-- Sum of squared deviations from the mean, `Σ (x - x̄)²`. -/
def s2 (xs : List ℚ) : ℚ := sCross xs xs

/-- Sample variance (`ddof=1`), only used on samples of length ≥ 2. -/
def sampleVar (xs : List ℚ) : ℚ := s2 xs / ((xs.length : ℚ) - 1)

/-- Model of `series.std(ddof=1)` as an exact value: `NaN` for samples of fewer
than two observations (pandas), otherwise `√(sampleVar) = 1·√var`. -/
def stdRV (xs : List ℚ) : RV :=
  if xs.length < 2 then RV.nan else RV.sq 1 (sampleVar xs)

/-- Model of `series.std() * sqrt(252)` as an exact value:
`√var · √252 = √(252·var)`. -/
def annStdRV (xs : List ℚ) : RV :=
  if xs.length < 2 then RV.nan else RV.sq 1 (252 * sampleVar xs)

/-! ## The DataFrame model -/

/-- A pandas DataFrame with a date index: a shared list of dates and one
ticker-keyed column of values per instrument (column-major; alignment of
`cols` value lengths with `dates` is an invariant of well-formed inputs,
stated as a hypothesis where a theorem needs it). -/
structure DF where
  dates : List ℤ
  cols : List (String × List ℚ)
deriving DecidableEq, Repr

/-- Model of `df.empty` (true when either axis has length 0). -/
def DF.isEmpty (df : DF) : Bool := df.dates.isEmpty || df.cols.isEmpty

/-- Model of `df.loc[start:end]` on a date-sorted frame: keep the rows whose date
lies in `[s, e]` inclusive (both endpoints included, as pandas label
slicing does). -/
def sliceDF (df : DF) (s e : ℤ) : DF :=
  { dates := df.dates.filter (fun d => decide (s ≤ d ∧ d ≤ e)),
    cols := df.cols.map
      (fun c => (c.1,
        ((df.dates.zip c.2).filter (fun p => decide (s ≤ p.1 ∧ p.1 ≤ e))).map
          Prod.snd)) }

/-- Model of `SP500_TICKER` (config.py line 38), the benchmark identifier. -/
def benchTicker : String := "^GSPC"

/-- Model of `ROLLING_WINDOW` (config.py line 49). -/
def rollingWindow : Nat := 60

/-- Model of `PERIODS` (config.py lines 52-57), in insertion order. -/
def periodsConfig : List (String × Nat) :=
  [("10Y", 10), ("5Y", 5), ("3Y", 3), ("1Y", 1)]

/-- Matrix-level `calculate_daily_returns` (calculations.py lines 11-15):
`df.pct_change().fillna(0)`, applied to every column independently. -/
def calculateDailyReturns (df : DF) : DF :=
  { dates := df.dates, cols := df.cols.map (fun c => (c.1, dailyCol c.2)) }

/-- Matrix-level `calculate_cumulative_returns` (calculations.py lines
31-37): `(1 + df_returns).cumprod() - 1` per column. -/
def calculateCumulativeReturns (df : DF) : DF :=
  { dates := df.dates, cols := df.cols.map (fun c => (c.1, cumCol c.2)) }

/-! ## Rolling correlation (`calculate_rolling_correlation`) -/

/-- The trailing window of `w` observations ending at position `i`
(inclusive); shorter when `i + 1 < w`. -/
def trailWin (xs : List ℚ) (i w : Nat) : List ℚ :=
  (xs.take (i + 1)).drop (i + 1 - w)

/-- Pearson correlation of two aligned samples, exactly:
`Sxy / (sx·sy) = Sxy/√(Sxx·Syy)`, represented as
`(Sxy/(Sxx·Syy))·√(Sxx·Syy)`; `NaN` (0/0) when either sample has zero
sum of squared deviations, as in pandas. -/
def corrW (xs ys : List ℚ) : RV :=
  if s2 xs = 0 ∨ s2 ys = 0 then RV.nan
  else RV.sq (sCross xs ys / (s2 xs * s2 ys)) (s2 xs * s2 ys)

/-- Model of `x.rolling(window).corr(benchmark_returns)` on one column
(calculations.py line 22): position `i` is `NaN` for the first
`window - 1` positions (`min_periods` defaults to `window`), and the
Pearson correlation of the two trailing windows afterwards. -/
def rollCol (xs bs : List ℚ) (w : Nat) : List RV :=
  (List.range xs.length).map
    (fun i => if i + 1 < w then RV.nan
              else corrW (trailWin xs i w) (trailWin bs i w))

/-- A ticker-keyed return matrix (the shape `calculate_rolling_correlation`
consumes: one returns column per instrument). -/
abbrev RetM := List (String × List ℚ)

/-- Model of `calculate_rolling_correlation` (calculations.py lines 17-23):
look up the benchmark column (a missing key is a `KeyError`), then apply
the rolling correlation against it to every column. -/
def calculateRollingCorrelation (m : RetM) (bench : String) (w : Nat) :
    Except String (List (String × List RV)) :=
  match List.lookup bench m with
  | none => Except.error "KeyError"
  | some bs => Except.ok (m.map (fun c => (c.1, rollCol c.2 bs w)))

/-! ## Per-period metrics (`metrics_for_period`) -/

/-- A value of one entry of the metrics dict: either a bare float scalar
(`np.nan` on the empty-slice path) or a ticker-indexed Series. -/
inductive ColV where
  | scalar (v : RV)
  | series (l : List (String × RV))
deriving DecidableEq, Repr

/-- Whether the entry is a bare scalar (not a Series). -/
def ColV.isScalar : ColV → Bool
  | scalar _ => true
  | series _ => false

/-- The value for ticker position `i` of a Series entry. -/
def ColV.val? (c : ColV) (i : Nat) : Option RV :=
  match c with
  | scalar _ => none
  | series l => (l.get? i).map Prod.snd

/-- The six-field per-period metrics record, in source order
(calculations.py lines 76-83 and 105-112). -/
structure MetricsDict where
  total_return : ColV
  annualized_return : ColV
  volatility : ColV
  sharpe_ratio : ColV
  sortino_ratio : ColV
  relative_return : ColV
deriving DecidableEq, Repr

/-- The empty-slice result (calculations.py lines 76-83): every field the
scalar `np.nan`. -/
def mdAllMissing : MetricsDict :=
  { total_return := ColV.scalar RV.nan,
    annualized_return := ColV.scalar RV.nan,
    volatility := ColV.scalar RV.nan,
    sharpe_ratio := ColV.scalar RV.nan,
    sortino_ratio := ColV.scalar RV.nan,
    relative_return := ColV.scalar RV.nan }

/-- Model of `total_return` of one column: `iloc[-1]/iloc[0] - 1`
(calculations.py line 88). -/
def trOf (ps : List ℚ) : ℚ := ps.getLastD 0 / ps.headD 0 - 1

/-- Model of `annualized_return` of one column:
`(1 + total_return) ** (252 / n) - 1` (calculations.py line 91), with the
platform power abstracted as `pw`. -/
def annOf (pw : ℚ → ℚ → FV) (n : ℚ) (ps : List ℚ) : RV :=
  ((pw (1 + trOf ps) (252 / n)).sub1).toRV

/-- Model of `volatility` of one column: `daily_returns.std() * np.sqrt(252)`
(calculations.py line 94). -/
def volOf (ps : List ℚ) : RV := annStdRV (retsCol ps)

/-- Model of `calculate_sortino_ratio` for one column (calculations.py lines
52-59): downside standard deviation `neg.std() * 252**0.5`; the float
test `downside_std == 0` selects `NaN`, otherwise the ratio is the IEEE
division (which propagates a `NaN` downside deviation). -/
def sortinoOf (pw : ℚ → ℚ → FV) (n : ℚ) (ps : List ℚ) : RV :=
  let rs := retsCol ps
  let neg := rs.filter (fun r => decide (r < 0))
  let d := annStdRV neg
  if d.eqZero then RV.nan else RV.div (annOf pw n ps) d

/-- The metrics record of the non-empty path of `metrics_for_period`
(calculations.py lines 84-112), given the benchmark's total return `trB`:
six ticker-indexed Series over the slice's columns
(`calculate_sharpe_ratio` is the elementwise Series division of line 43;
`calculate_relative_return` of lines 62-68 subtracts `trB` from each
total return). -/
def mfpRecord (pw : ℚ → ℚ → FV) (df : DF) (s e : ℤ) (trB : ℚ) :
    MetricsDict :=
  let sl := sliceDF df s e
  let n : ℚ := (sl.dates.length : ℚ)
  { total_return :=
      ColV.series (sl.cols.map (fun c => (c.1, RV.sq (trOf c.2) 1))),
    annualized_return :=
      ColV.series (sl.cols.map (fun c => (c.1, annOf pw n c.2))),
    volatility :=
      ColV.series (sl.cols.map (fun c => (c.1, volOf c.2))),
    sharpe_ratio :=
      ColV.series (sl.cols.map
        (fun c => (c.1, RV.div (annOf pw n c.2) (volOf c.2)))),
    sortino_ratio :=
      ColV.series (sl.cols.map (fun c => (c.1, sortinoOf pw n c.2))),
    relative_return :=
      ColV.series (sl.cols.map
        (fun c => (c.1, RV.sq (trOf c.2 - trB) 1))) }

/-- Model of `metrics_for_period` (calculations.py lines 70-112).  An empty slice
returns the all-scalar-`NaN` dict before touching the benchmark; a
non-empty slice computes the six Series of `mfpRecord`, with a `KeyError`
when the benchmark ticker is not a column (line 67). -/
def metricsForPeriod (pw : ℚ → ℚ → FV) (df : DF) (s e : ℤ) :
    Except String MetricsDict :=
  if (sliceDF df s e).isEmpty then Except.ok mdAllMissing
  else
    match List.lookup benchTicker
        ((sliceDF df s e).cols.map (fun c => (c.1, trOf c.2))) with
    | none => Except.error "KeyError"
    | some trB => Except.ok (mfpRecord pw df s e trB)

/-! ## Table assembly (`generate_metrics_table`) -/

/-- The error message `pd.DataFrame` raises for an all-scalar dict. -/
def allScalarMsg : String := "If using all scalar values, you must pass an index"

/-- An assembled per-period table: a ticker index plus the six named
columns. -/
structure MTable where
  index : List String
  tcols : List (String × List RV)
deriving DecidableEq, Repr

/-- Model of `pd.DataFrame(dict)` over scalar-or-Series values: raises
`ValueError` when every value is a scalar and no index is passed;
otherwise takes the index from the Series (which are index-aligned here)
and broadcasts scalar values over it.  A key a Series lacks is `NaN`. -/
def mkDataFrame (cs : List (String × ColV)) : Except String MTable :=
  if cs.all (fun c => c.2.isScalar) then Except.error allScalarMsg
  else
    let idx : List String :=
      ((cs.filterMap (fun c =>
          match c.2 with
          | ColV.series l => some l
          | ColV.scalar _ => none)).headD []).map Prod.fst
    Except.ok
      { index := idx,
        tcols := cs.map (fun c =>
          (c.1,
           match c.2 with
           | ColV.scalar v => idx.map (fun _ => v)
           | ColV.series l =>
               idx.map (fun k => ((List.lookup k l).getD RV.nan)))) }

/-- Lines 126-133 of calculations.py: assemble one period's metrics dict
into a DataFrame with the six named columns in source order. -/
def assembleTable (m : MetricsDict) : Except String MTable :=
  mkDataFrame
    [("Total Return", m.total_return),
     ("Annualized Return", m.annualized_return),
     ("Volatility", m.volatility),
     ("Sharpe Ratio", m.sharpe_ratio),
     ("Sortino Ratio", m.sortino_ratio),
     ("Relative Return vs SP500", m.relative_return)]

/-- Model of `df.index.max()` (junk 0 on an empty index, which only the
degenerate empty-matrix case reaches). -/
def dmax (l : List ℤ) : ℤ := l.foldl max (l.headD 0)

/-- Model of `generate_metrics_table` (calculations.py lines 114-136): the end
date is always `df.index.max()` — the `reference_date` argument is
ignored; for each configured period, slice from
`end_date - DateOffset(years)` (the calendar offset abstracted as
`offset`) and assemble the per-period table, in `PERIODS` order. -/
def generateMetricsTable (pw : ℚ → ℚ → FV) (offset : ℤ → Nat → ℤ)
    (df : DF) (referenceDate : ℤ) :
    List (String × Except String MTable) :=
  let endDate := dmax df.dates
  periodsConfig.map (fun p =>
    (p.1, (metricsForPeriod pw df (offset endDate p.2) endDate).bind
            assembleTable))

/-! ## Validation (`data_validation.py`) -/

/-- Model of `validate_data` (data_validation.py lines 9-26): print a warning when
the index has duplicated dates, report on missing values (none exist in
a dense rational matrix, so the pass message is printed), and return the
input unchanged.  The printed lines are returned as the first component;
nothing is ever rejected or repaired. -/
def validateData (df : DF) : List String × DF :=
  (((if df.dates.Nodup then []
     else ["Warning: There are duplicated dates in the index."]) ++
    ["Data validation passed with no missing values."]), df)

/-- Stand-in instantiation for the platform float power, for concrete
evaluations only: exact at non-negative integer exponents (the only
points where any concrete evaluation in this file uses it, and where the
platform power is also exact); arbitrary (`NaN`) elsewhere.  All general
theorems are parametric in the power function. -/
def pyPow (b e : ℚ) : FV :=
  if 0 ≤ e ∧ e.den = 1 then FV.num (b ^ e.num.toNat) else FV.nan

/-! ## Concrete inputs used by witnesses and counterexamples -/

/-- A constant-growth single-instrument price matrix: prices 1, 2, 4 on
dates 0, 1, 2 (every daily return is exactly 1, so the return sample has
zero variance while the total return is nonzero). -/
def dfGrow : DF := { dates := [0, 1, 2], cols := [(benchTicker, [1, 2, 4])] }

/-- A price matrix violating the input contract: duplicated dates and a
non-positive (negative) price. -/
def dfBad : DF :=
  { dates := [0, 0, 1], cols := [("A", [1, -5, 2]), (benchTicker, [1, 1, 1])] }

/-- A tiny well-formed price matrix (used for the empty-slice path with
`start_date` after `end_date`). -/
def dfTiny : DF := { dates := [0, 1], cols := [(benchTicker, [1, 2])] }

/-- A single-column return matrix for the rolling-correlation claims. -/
def retmB : RetM := [(benchTicker, [0, 0, 1])]

/-- The rolling-correlation output for `retmB` at window 2. -/
def outB : List (String × List RV) :=
  [(benchTicker, rollCol [0, 0, 1] [0, 0, 1] 2)]

/-- A trivial instantiation of the abstract power function (any function
may discharge the parametricity of the general theorems; witnesses use
this one to keep concrete records small). -/
def pwTwo : ℚ → ℚ → FV := fun _ _ => FV.num 2

/-- A single-instrument price matrix whose daily returns are all positive
and of nonzero variance: prices 1, 2, 8 on dates 0, 1, 2. -/
def dfPos : DF := { dates := [0, 1, 2], cols := [(benchTicker, [1, 2, 8])] }

/-! ## Helper lemmas -/

/-- Justification of the exact representation: for `0 ≤ b`, the
represented real `a·√b` equals 1 exactly when `RV.isOne` says so. -/
theorem isOne_iff_real (a b : ℚ) (hb : 0 ≤ b) :
    (RV.sq a b).isOne = true ↔ (a : ℝ) * Real.sqrt (b : ℝ) = 1 := by
  simp only [RV.isOne, Bool.and_eq_true, decide_eq_true_eq]
  constructor
  · rintro ⟨ha, hab⟩
    have hb' : (0 : ℝ) ≤ (b : ℝ) := by exact_mod_cast hb
    have h1 : ((a : ℝ) * Real.sqrt b) ^ 2 = (a : ℝ) ^ 2 * b := by
      rw [mul_pow, Real.sq_sqrt hb']
    have h2 : ((a : ℝ) * Real.sqrt b) ^ 2 = 1 := by
      rw [h1]
      exact_mod_cast congrArg (fun q : ℚ => (q : ℝ)) hab
    have h3 : 0 ≤ (a : ℝ) * Real.sqrt b := by
      apply mul_nonneg _ (Real.sqrt_nonneg _)
      have : (0 : ℝ) < (a : ℝ) := by exact_mod_cast ha
      exact le_of_lt this
    have h4 : ((a : ℝ) * Real.sqrt b - 1) * ((a : ℝ) * Real.sqrt b + 1) = 0 := by
      ring_nf
      nlinarith [h2]
    rcases mul_eq_zero.mp h4 with h | h
    · linarith
    · nlinarith
  · intro h
    have hb' : (0 : ℝ) ≤ (b : ℝ) := by exact_mod_cast hb
    have hs : 0 ≤ Real.sqrt (b : ℝ) := Real.sqrt_nonneg _
    have ha : 0 < (a : ℝ) := by
      rcases lt_trichotomy (a : ℝ) 0 with h1 | h1 | h1
      · nlinarith
      · rw [h1, zero_mul] at h; norm_num at h
      · exact h1
    have hab : (a : ℝ) ^ 2 * (b : ℝ) = 1 := by
      have : ((a : ℝ) * Real.sqrt b) ^ 2 = 1 := by rw [h]; norm_num
      rw [mul_pow, Real.sq_sqrt hb'] at this
      exact this
    constructor
    · exact_mod_cast ha
    · exact_mod_cast hab

theorem lookup_map_value {α β : Type} (k : String) (f : α → β) :
    ∀ (m : List (String × α)) (v : α), List.lookup k m = some v →
      List.lookup k (m.map (fun c => (c.1, f c.2))) = some (f v) := by
  intro m
  induction m with
  | nil => intro v h; simp [List.lookup] at h
  | cons a t ih =>
      intro v h
      simp only [List.lookup, List.map_cons]
      by_cases hk : k = a.1
      · subst hk
        simp only [List.lookup, beq_self_eq_true] at h ⊢
        simp at h
        simp [h]
      · have hne : (k == a.1) = false := beq_false_of_ne hk
        simp only [List.lookup, hne] at h ⊢
        exact ih v h

theorem mem_zip_self {α : Type} (xs : List α) :
    ∀ p ∈ xs.zip xs, p.1 = p.2 := by
  induction xs with
  | nil => intro p h; simp at h
  | cons x t ih =>
      intro p h
      simp only [List.zip_cons_cons, List.mem_cons] at h
      rcases h with h | h
      · subst h; rfl
      · exact ih p h

theorem s2_nonneg (xs : List ℚ) : 0 ≤ s2 xs := by
  unfold s2 sCross
  apply List.sum_nonneg
  intro x hx
  rcases List.mem_map.mp hx with ⟨p, hp, rfl⟩
  have h1 := mem_zip_self xs p hp
  rw [h1]
  exact mul_self_nonneg _

theorem zip_get?_eq {α β : Type} :
    ∀ (xs : List α) (ys : List β) (i : Nat) (a : α) (b : β),
      xs.get? i = some a → ys.get? i = some b →
      (xs.zip ys).get? i = some (a, b) := by
  intro xs
  induction xs with
  | nil => intro ys i a b h; simp at h
  | cons x t ih =>
      intro ys i a b hx hy
      cases ys with
      | nil => simp at hy
      | cons y u =>
          cases i with
          | zero =>
              simp only [List.get?] at hx hy
              cases hx; cases hy
              rfl
          | succ j =>
              simp only [List.get?] at hx hy ⊢
              exact ih u j a b hx hy

/-! ## Claim theorems -/

/-- C10: the metrics-table builder's output is independent of its
reference-date argument: the end date used is always the matrix's latest
date, and `referenceDate` is never read. -/
theorem metrics_table_ignores_reference_date (pw : ℚ → ℚ → FV)
    (offset : ℤ → Nat → ℤ) (df : DF) (r1 r2 : ℤ) :
    generateMetricsTable pw offset df r1 = generateMetricsTable pw offset df r2 :=
  rfl

/-- C1: for every price matrix and period whose slice is empty, the
period evaluator does return the all-Missing record without error — but
the table-assembly step of the table builder (`pd.DataFrame` over six
scalar values) then raises, contradicting the claim's "no error is raised
anywhere on this path". -/
theorem empty_slice_metrics_ok_but_table_raises (pw : ℚ → ℚ → FV)
    (df : DF) (s e : ℤ) (h : (sliceDF df s e).isEmpty = true) :
    metricsForPeriod pw df s e = Except.ok mdAllMissing ∧
    assembleTable mdAllMissing = Except.error allScalarMsg := by
  constructor
  · simp only [metricsForPeriod, h, if_true]
  · rfl

/-- Witness for C1 at a concrete input (`start_date` after `end_date`). -/
theorem empty_slice_metrics_witness :
    (sliceDF dfTiny 5 3).isEmpty = true ∧
    (metricsForPeriod pyPow dfTiny 5 3 = Except.ok mdAllMissing ∧
     assembleTable mdAllMissing = Except.error allScalarMsg) :=
  ⟨by decide, empty_slice_metrics_ok_but_table_raises pyPow dfTiny 5 3 (by decide)⟩

/-- C5 (counterexample): an input with duplicated dates and a
negative price is not rejected: validation returns it unchanged with a
printed warning, the daily-return computation produces a full result, and
the period evaluator computes a metrics record from it. -/
theorem validation_never_rejects_cex :
    ¬ dfBad.dates.Nodup ∧
    validateData dfBad =
      (["Warning: There are duplicated dates in the index.",
        "Data validation passed with no missing values."], dfBad) ∧
    calculateDailyReturns dfBad =
      { dates := [0, 0, 1],
        cols := [("A", [0, -6, -7/5]), (benchTicker, [0, 0, 0])] } ∧
    (metricsForPeriod pyPow dfBad 0 1).isOk = true := by
  refine ⟨by decide, by decide, ?_, by decide⟩
  norm_num [calculateDailyReturns, dfBad, dailyCol, benchTicker]

/-- C5 (amended): the core never rejects any input: validation
returns the matrix unchanged whatever it contains (warnings are only
printed), and the return computation produces a same-shape result for
every matrix. -/
theorem validation_never_rejects (df : DF) :
    (validateData df).2 = df ∧
    (calculateDailyReturns df).dates = df.dates ∧
    (calculateDailyReturns df).cols.length = df.cols.length := by
  refine ⟨rfl, rfl, ?_⟩
  simp [calculateDailyReturns]

/-- C4 (counterexample): called with window 1 (< 2), the
rolling-correlation computation does not fail: it returns a correlation
matrix (all entries Missing). -/
theorem rolling_window_one_returns_matrix_cex :
    (1 : Nat) < 2 ∧
    calculateRollingCorrelation retmB benchTicker 1 =
      Except.ok [(benchTicker, [RV.nan, RV.nan, RV.nan])] := by
  refine ⟨by decide, ?_⟩
  have hr : List.range 3 = [0, 1, 2] := rfl
  norm_num [calculateRollingCorrelation, retmB, benchTicker, rollCol, hr,
    trailWin, corrW, s2, sCross, listMean]

/-- C4 (amended): the computation performs no window validation; for
window 1 it returns, for any matrix containing the benchmark, a matrix in
which every entry is Missing (a single-observation window has an
undefined correlation), rather than failing. -/
theorem rolling_window_one_all_missing (m : RetM) (bench : String)
    (bs : List ℚ) (h : List.lookup bench m = some bs) :
    ∃ out, calculateRollingCorrelation m bench 1 = Except.ok out ∧
      ∀ c ∈ out, ∀ v ∈ c.2, v = RV.nan := by
  refine ⟨m.map (fun c => (c.1, rollCol c.2 bs 1)), ?_, ?_⟩
  · simp [calculateRollingCorrelation, h]
  · intro c hc v hv
    rcases List.mem_map.mp hc with ⟨c0, _, rfl⟩
    simp only [rollCol, List.mem_map] at hv
    rcases hv with ⟨i, hi, rfl⟩
    have hi' : i < c0.2.length := List.mem_range.mp hi
    have hwin : ∃ x, trailWin c0.2 i 1 = [x] := by
      apply List.length_eq_one.mp
      simp only [trailWin, List.length_drop, List.length_take]
      omega
    rcases hwin with ⟨x, hx⟩
    have : ¬ (i + 1 < 1) := by omega
    simp only [this, if_false, hx, corrW]
    have hs2 : s2 [x] = 0 := by
      simp [s2, sCross, listMean]
    simp [hs2]

/-- Witness for the amended C4 at a concrete input. -/
theorem rolling_window_one_all_missing_witness :
    List.lookup benchTicker retmB = some [0, 0, 1] ∧
    (∃ out, calculateRollingCorrelation retmB benchTicker 1 = Except.ok out ∧
      ∀ c ∈ out, ∀ v ∈ c.2, v = RV.nan) :=
  ⟨rfl, rolling_window_one_all_missing retmB benchTicker [0, 0, 1] rfl⟩

/-- C9: the daily-return computation preserves the matrix shape, puts
0 at the first date of every column, puts the simple percentage change
`(P[t] - P[t-1]) / P[t-1]` at every later date (prices being positive per
the PriceMatrix invariant), never fails, and maps a single-row input to a
single all-zero row. -/
theorem daily_returns_contract (df : DF) :
    (calculateDailyReturns df).dates = df.dates ∧
    (calculateDailyReturns df).cols.map Prod.fst = df.cols.map Prod.fst ∧
    (∀ p : ℚ, dailyCol [p] = [0]) ∧
    ∀ i nm ps, df.cols.get? i = some (nm, ps) →
      (calculateDailyReturns df).cols.get? i = some (nm, dailyCol ps) ∧
      (dailyCol ps).length = ps.length ∧
      (ps ≠ [] → (dailyCol ps).head? = some 0) ∧
      (∀ t a b, ps.get? t = some a → ps.get? (t + 1) = some b → 0 < a →
        (dailyCol ps).get? (t + 1) = some ((b - a) / a)) := by
  refine ⟨rfl, ?_, ?_, ?_⟩
  · simp [calculateDailyReturns]
  · intro p; rfl
  · intro i nm ps h
    refine ⟨?_, ?_, ?_, ?_⟩
    · simp only [calculateDailyReturns]
      rw [List.get?_map, h]
      rfl
    · cases ps with
      | nil => rfl
      | cons p tl =>
          simp only [dailyCol, List.length_cons, List.length_map,
            List.length_zip]
          omega
    · intro hne
      cases ps with
      | nil => exact absurd rfl hne
      | cons p tl => rfl
    · intro t a b ha hb hpos
      cases ps with
      | nil => simp at ha
      | cons p tl =>
          have htl : tl.get? t = some b := hb
          have hz : ((p :: tl).zip tl).get? t = some (a, b) :=
            zip_get?_eq (p :: tl) tl t a b ha htl
          simp only [dailyCol, List.get?]
          rw [List.get?_map, hz]
          have hval : b / a - 1 = (b - a) / a := by
            field_simp
          simp [hval]

/-- Witness for C9 at a concrete input. -/
theorem daily_returns_contract_witness :
    dfGrow.cols.get? 0 = some (benchTicker, [1, 2, 4]) ∧
    (([1, 2, 4] : List ℚ).get? 0 = some 1 ∧
     ([1, 2, 4] : List ℚ).get? 1 = some 2 ∧ (0 : ℚ) < 1) ∧
    (dailyCol [1, 2, 4]).get? 1 = some ((2 - 1) / 1) :=
  ⟨rfl, ⟨rfl, rfl, by norm_num⟩,
    (((daily_returns_contract dfGrow).2.2.2 0 benchTicker [1, 2, 4] rfl).2.2.2)
      0 1 2 rfl rfl (by norm_num)⟩

/-! ## Cumulative-return lemmas for C3 -/

theorem cumprodFrom_getLast? (xs : List ℚ) : ∀ acc : ℚ, xs ≠ [] →
    (cumprodFrom acc xs).getLast? = some (acc * xs.prod) := by
  induction xs with
  | nil => intro acc h; exact absurd rfl h
  | cons x t ih =>
      intro acc _
      cases t with
      | nil => simp [cumprodFrom]
      | cons y u =>
          have h2 := ih (acc * x) (by simp)
          have hsh : cumprodFrom acc (x :: y :: u) =
              (acc * x) :: (acc * x * y) :: cumprodFrom (acc * x * y) u := rfl
          rw [hsh, List.getLast?_cons_cons]
          have hsh2 : cumprodFrom (acc * x) (y :: u) =
              (acc * x * y) :: cumprodFrom (acc * x * y) u := rfl
          rw [hsh2] at h2
          rw [h2]
          congr 1
          simp only [List.prod_cons]
          ring

theorem prod_ratio_telescope :
    ∀ (rest : List ℚ) (p0 : ℚ), p0 ≠ 0 → (∀ x ∈ rest, x ≠ 0) →
      (((p0 :: rest).zip rest).map (fun ab => ab.2 / ab.1)).prod
        = (p0 :: rest).getLastD 0 / p0 := by
  intro rest
  induction rest with
  | nil =>
      intro p0 h0 _
      simp [div_self h0]
  | cons q t ih =>
      intro p0 h0 hmem
      have hq : q ≠ 0 := hmem q (by simp)
      have ht : ∀ x ∈ t, x ≠ 0 := fun x hx => hmem x (by simp [hx])
      have h2 := ih q hq ht
      simp only [List.zip_cons_cons, List.map_cons, List.prod_cons]
      rw [h2]
      rw [List.getLastD_cons, List.getLastD_cons, List.getLastD_cons]
      field_simp
      ring

theorem cumCol_dailyCol_getLast? (p0 : ℚ) (rest : List ℚ)
    (hpos : ∀ p ∈ p0 :: rest, 0 < p) :
    (cumCol (dailyCol (p0 :: rest))).getLast? =
      some ((p0 :: rest).getLastD 0 / p0 - 1) := by
  have hne : ∀ x ∈ p0 :: rest, x ≠ 0 := fun x hx => ne_of_gt (hpos x hx)
  have h0 : p0 ≠ 0 := hne p0 (by simp)
  have hmem : ∀ x ∈ rest, x ≠ 0 := fun x hx => hne x (by simp [hx])
  have hfun : ((fun r => 1 + r) ∘ fun ab : ℚ × ℚ => ab.2 / ab.1 - 1)
      = fun ab : ℚ × ℚ => ab.2 / ab.1 := by
    funext ab
    simp only [Function.comp_apply]
    ring
  have hmap : (dailyCol (p0 :: rest)).map (fun r => 1 + r)
      = 1 :: ((p0 :: rest).zip rest).map (fun ab => ab.2 / ab.1) := by
    simp only [dailyCol, List.map_cons, List.map_map, hfun]
    norm_num
  unfold cumCol
  rw [hmap]
  have h1 : (cumprod
      (1 :: ((p0 :: rest).zip rest).map (fun ab => ab.2 / ab.1))).getLast?
      = some (1 * (1 :: ((p0 :: rest).zip rest).map
          (fun ab => ab.2 / ab.1)).prod) :=
    cumprodFrom_getLast? _ 1 (by simp)
  rw [List.getLast?_map, h1]
  simp only [List.prod_cons, one_mul]
  rw [prod_ratio_telescope rest p0 h0 hmem]
  rfl

/-- C3: composing the daily-return computation with the
cumulative-return computation yields, at the final date of every
positive-price column, exactly `last_price / first_price - 1`
(reinvestment identity). -/
theorem cumulative_reinvestment_identity (df : DF) (i : Nat) (nm : String)
    (ps : List ℚ) (h : df.cols.get? i = some (nm, ps)) (hne : ps ≠ [])
    (hpos : ∀ p ∈ ps, 0 < p) :
    (calculateCumulativeReturns (calculateDailyReturns df)).cols.get? i =
      some (nm, cumCol (dailyCol ps)) ∧
    (cumCol (dailyCol ps)).getLast? =
      some (ps.getLastD 0 / ps.headD 0 - 1) := by
  constructor
  · simp only [calculateCumulativeReturns, calculateDailyReturns,
      List.map_map]
    rw [List.get?_map, h]
    rfl
  · cases ps with
    | nil => exact absurd rfl hne
    | cons p0 rest =>
        simpa using cumCol_dailyCol_getLast? p0 rest hpos

/-! ## Rolling-correlation lemmas for C6 and C7 -/

theorem rollCol_get? (xs bs : List ℚ) (w i : Nat) (hi : i < xs.length) :
    (rollCol xs bs w).get? i =
      some (if i + 1 < w then RV.nan
            else corrW (trailWin xs i w) (trailWin bs i w)) := by
  unfold rollCol
  rw [List.get?_map, List.get?_range hi]
  rfl

/-- C6: rolling-correlation Missing structure: the output pairs each
input column with its rolling column; a column shorter than the window is
all Missing; every column has its first `w - 1` positions unconditionally
Missing; and a position with full history is Missing exactly when one of
the two trailing windows has zero variance. -/
theorem rolling_corr_missing_structure (m : RetM) (bench : String) (w : Nat)
    (bs : List ℚ) (out : List (String × List RV)) (hw : 1 ≤ w)
    (hb : List.lookup bench m = some bs)
    (h : calculateRollingCorrelation m bench w = Except.ok out) :
    out = m.map (fun c => (c.1, rollCol c.2 bs w)) ∧
    (∀ xs : List ℚ, (rollCol xs bs w).length = xs.length) ∧
    (∀ xs : List ℚ, xs.length < w → ∀ v ∈ rollCol xs bs w, v = RV.nan) ∧
    (∀ (xs : List ℚ) (i : Nat), i + 1 < w → i < xs.length →
      (rollCol xs bs w).get? i = some RV.nan) ∧
    (∀ (xs : List ℚ) (i : Nat), w ≤ i + 1 → i < xs.length →
      ((rollCol xs bs w).get? i = some RV.nan ↔
        (s2 (trailWin xs i w) = 0 ∨ s2 (trailWin bs i w) = 0))) := by
  refine ⟨?_, ?_, ?_, ?_, ?_⟩
  · simp only [calculateRollingCorrelation, hb] at h
    exact (Except.ok.inj h).symm
  · intro xs; simp [rollCol]
  · intro xs hlen v hv
    simp only [rollCol, List.mem_map, List.mem_range] at hv
    rcases hv with ⟨i, hi, rfl⟩
    have hiw : i + 1 < w := by omega
    simp [hiw]
  · intro xs i hiw hi
    rw [rollCol_get? xs bs w i hi]
    simp [hiw]
  · intro xs i hiw hi
    rw [rollCol_get? xs bs w i hi]
    have hni : ¬ (i + 1 < w) := by omega
    simp only [hni, if_false]
    unfold corrW
    by_cases hc : s2 (trailWin xs i w) = 0 ∨ s2 (trailWin bs i w) = 0
    · simp [hc]
    · simp [hc]

/-- C7: in the rolling-correlation output, the benchmark's own column
equals 1.0 at every full-history position whose trailing window has
nonzero variance, and is Missing (not an error) where the window has zero
variance. -/
theorem rolling_corr_benchmark_self_one (m : RetM) (bench : String) (w : Nat)
    (bs : List ℚ) (out : List (String × List RV)) (hw : 1 ≤ w)
    (hb : List.lookup bench m = some bs)
    (h : calculateRollingCorrelation m bench w = Except.ok out) :
    List.lookup bench out = some (rollCol bs bs w) ∧
    ∀ i : Nat, w ≤ i + 1 → i < bs.length →
      (rollCol bs bs w).get? i =
        some (corrW (trailWin bs i w) (trailWin bs i w)) ∧
      (s2 (trailWin bs i w) ≠ 0 →
        (corrW (trailWin bs i w) (trailWin bs i w)).isOne = true) ∧
      (s2 (trailWin bs i w) = 0 →
        corrW (trailWin bs i w) (trailWin bs i w) = RV.nan) := by
  constructor
  · have hout : out = m.map (fun c => (c.1, rollCol c.2 bs w)) := by
      simp only [calculateRollingCorrelation, hb] at h
      exact (Except.ok.inj h).symm
    rw [hout]
    exact lookup_map_value bench (fun v => rollCol v bs w) m bs hb
  · intro i hiw hi
    have hni : ¬ (i + 1 < w) := by omega
    refine ⟨?_, ?_, ?_⟩
    · rw [rollCol_get? bs bs w i hi]
      simp [hni]
    · intro hs
      have hpos : 0 < s2 (trailWin bs i w) :=
        lt_of_le_of_ne (s2_nonneg _) (Ne.symm hs)
      have hne2 : ¬ (s2 (trailWin bs i w) = 0 ∨ s2 (trailWin bs i w) = 0) := by
        tauto
      rw [corrW, if_neg hne2]
      have hcross : sCross (trailWin bs i w) (trailWin bs i w)
          = s2 (trailWin bs i w) := rfl
      rw [hcross]
      simp only [RV.isOne, Bool.and_eq_true, decide_eq_true_eq]
      constructor
      · positivity
      · field_simp
        ring
    · intro hs
      rw [corrW, if_pos (Or.inl hs)]

/-- Witness for C6 at a concrete input. -/
theorem rolling_corr_missing_structure_witness :
    (1 ≤ 2) ∧ List.lookup benchTicker retmB = some [0, 0, 1] ∧
    calculateRollingCorrelation retmB benchTicker 2 = Except.ok outB ∧
    (rollCol [0, 0, 1] [0, 0, 1] 2).get? 0 = some RV.nan :=
  ⟨by decide, rfl, rfl,
    (rolling_corr_missing_structure retmB benchTicker 2 [0, 0, 1] outB
      (by decide) rfl rfl).2.2.2.1 [0, 0, 1] 0 (by decide) (by decide)⟩

/-- Witness for C7 at a concrete input. -/
theorem rolling_corr_benchmark_self_one_witness :
    (1 ≤ 2) ∧ List.lookup benchTicker retmB = some [0, 0, 1] ∧
    calculateRollingCorrelation retmB benchTicker 2 = Except.ok outB ∧
    (corrW (trailWin [0, 0, 1] 2 2) (trailWin [0, 0, 1] 2 2)).isOne = true :=
  ⟨by decide, rfl, rfl,
    ((rolling_corr_benchmark_self_one retmB benchTicker 2 [0, 0, 1] outB
        (by decide) rfl rfl).2 2 (by decide) (by decide)).2.1
      (by norm_num [trailWin, s2, sCross, listMean])⟩

/-! ## Metrics-record lemmas for C2 and C8 -/

/-- A successful non-empty `metrics_for_period` run found the benchmark
among the slice's total returns and produced the `mfpRecord` Series. -/
theorem metricsForPeriod_ok_shape (pw : ℚ → ℚ → FV) (df : DF) (s e : ℤ)
    (rec : MetricsDict) (h : metricsForPeriod pw df s e = Except.ok rec)
    (hne : (sliceDF df s e).isEmpty = false) :
    ∃ trB, List.lookup benchTicker
        ((sliceDF df s e).cols.map (fun c => (c.1, trOf c.2))) = some trB ∧
      rec = mfpRecord pw df s e trB := by
  unfold metricsForPeriod at h
  simp only [hne, Bool.false_eq_true, if_false] at h
  cases hlk : List.lookup benchTicker
      ((sliceDF df s e).cols.map (fun c => (c.1, trOf c.2))) with
  | none => rw [hlk] at h; exact absurd h (by simp)
  | some trB =>
      rw [hlk] at h
      exact ⟨trB, rfl, (Except.ok.inj h).symm⟩

theorem seriesMap_val? (cols : List (String × List ℚ))
    (g : String × List ℚ → RV) (i : Nat) :
    (ColV.series (cols.map (fun c => (c.1, g c)))).val? i
      = (cols.get? i).map g := by
  simp only [ColV.val?]
  rw [List.get?_map]
  cases cols.get? i <;> rfl

theorem div_nan_right (A : RV) : RV.div A RV.nan = RV.nan := by
  cases A <;> rfl

/-- IEEE division by an exact zero: the quotient is `NaN` exactly when
the numerator is `NaN` or an exact zero (otherwise it is `±inf`). -/
theorem div_by_zero_sq_nan_iff (A : RV) (c d : ℚ) (hcd : c = 0 ∨ d = 0) :
    (RV.div A (RV.sq c d) = RV.nan ↔ (A = RV.nan ∨ A.eqZero = true)) := by
  cases A with
  | nan => simp [RV.div]
  | pinf => simp [RV.div, hcd, RV.eqZero]
  | ninf => simp [RV.div, hcd, RV.eqZero]
  | sq a b =>
      simp only [RV.div, if_pos hcd]
      by_cases hab : a = 0 ∨ b = 0
      · simp only [if_pos hab, RV.eqZero]
        simp [hab]
      · by_cases h0 : 0 < a <;>
          simp [hab, h0, RV.eqZero]

/-- C2 (amended): per instrument, the Sharpe ratio is always the IEEE
division of the annualized-return entry by the volatility entry; when the
volatility is exactly zero the result is Missing only when the annualized
return is itself Missing or exactly zero — a nonzero annualized return
over zero volatility yields `±inf`, not Missing. -/
theorem sharpe_is_ieee_div (pw : ℚ → ℚ → FV) (df : DF) (s e : ℤ)
    (rec : MetricsDict) (h : metricsForPeriod pw df s e = Except.ok rec)
    (hne : (sliceDF df s e).isEmpty = false) (i : Nat) (annV volV shV : RV)
    (ha : rec.annualized_return.val? i = some annV)
    (hv : rec.volatility.val? i = some volV)
    (hs : rec.sharpe_ratio.val? i = some shV) :
    shV = RV.div annV volV ∧
    (volV.eqZero = true →
      (shV = RV.nan ↔ (annV = RV.nan ∨ annV.eqZero = true))) := by
  obtain ⟨trB, _, rfl⟩ := metricsForPeriod_ok_shape pw df s e rec h hne
  simp only [mfpRecord] at ha hv hs
  rw [seriesMap_val?] at ha hv hs
  cases hc : (sliceDF df s e).cols.get? i with
  | none => rw [hc] at ha; exact absurd ha (by simp)
  | some c =>
      rw [hc] at ha hv hs
      simp only [Option.map_some', Option.some.injEq] at ha hv hs
      subst ha; subst hv; subst hs
      refine ⟨rfl, ?_⟩
      intro hz
      unfold volOf annStdRV at hz ⊢
      by_cases hlen : (retsCol c.2).length < 2
      · rw [if_pos hlen] at hz
        simp [RV.eqZero] at hz
      · rw [if_neg hlen] at hz ⊢
        have hzero : (1 : ℚ) = 0 ∨ 252 * sampleVar (retsCol c.2) = 0 := by
          simp only [RV.eqZero, Bool.or_eq_true, decide_eq_true_eq] at hz
          tauto
        exact div_by_zero_sq_nan_iff _ 1 _ hzero

/-- The number of rows of the slice `[0, 2]` of `dfGrow` is 3. -/
theorem dfGrow_slice_len : (sliceDF dfGrow 0 2).dates.length = 3 := rfl

theorem pyPow_natCast (b : ℚ) (k : ℕ) : pyPow b (k : ℚ) = FV.num (b ^ k) := by
  unfold pyPow
  have h1 : (0 : ℚ) ≤ (k : ℚ) := by positivity
  simp [h1]

/-- C2 (counterexample): for the constant-growth prices 1, 2, 4 the
volatility entry is exactly zero, yet the Sharpe entry is `+inf`, not
Missing. -/
theorem sharpe_zero_vol_not_missing_cex :
    metricsForPeriod pyPow dfGrow 0 2 =
      Except.ok (mfpRecord pyPow dfGrow 0 2 (trOf [1, 2, 4])) ∧
    (mfpRecord pyPow dfGrow 0 2 (trOf [1, 2, 4])).volatility.val? 0 =
      some (RV.sq 1 0) ∧
    (RV.sq 1 0).eqZero = true ∧
    (mfpRecord pyPow dfGrow 0 2 (trOf [1, 2, 4])).sharpe_ratio.val? 0 =
      some RV.pinf ∧
    RV.pinf ≠ RV.nan := by
  have hvol : volOf [1, 2, 4] = RV.sq 1 0 := by
    norm_num [volOf, annStdRV, retsCol, sampleVar, s2, sCross, listMean]
  have hbase : 1 + trOf [1, 2, 4] = 4 := by
    norm_num [trOf]
  have hexp : (252 : ℚ) / ((sliceDF dfGrow 0 2).dates.length : ℚ)
      = ((84 : ℕ) : ℚ) := by
    rw [dfGrow_slice_len]
    norm_num
  have hann : annOf pyPow ((sliceDF dfGrow 0 2).dates.length : ℚ) [1, 2, 4]
      = RV.sq (4 ^ 84 - 1) 1 := by
    unfold annOf
    rw [hbase, hexp, pyPow_natCast]
    rfl
  have hpos : (0 : ℚ) < 4 ^ 84 - 1 := by norm_num
  refine ⟨rfl, ?_, by decide, ?_, by decide⟩
  · have h1 : (mfpRecord pyPow dfGrow 0 2 (trOf [1, 2, 4])).volatility.val? 0 =
        some (volOf [1, 2, 4]) := rfl
    rw [h1, hvol]
  · have h1 : (mfpRecord pyPow dfGrow 0 2 (trOf [1, 2, 4])).sharpe_ratio.val? 0 =
        some (RV.div
          (annOf pyPow ((sliceDF dfGrow 0 2).dates.length : ℚ) [1, 2, 4])
          (volOf [1, 2, 4])) := rfl
    rw [h1, hvol, hann]
    simp only [RV.div, Option.some.injEq]
    rw [if_pos (Or.inr trivial),
      if_neg (by push_neg; constructor <;> norm_num), if_pos hpos]

/-- Witness for the amended C2 at a concrete input (the abstract power
instantiated with a constant function, allowed by parametricity). -/
theorem sharpe_is_ieee_div_witness :
    metricsForPeriod pwTwo dfGrow 0 2 =
      Except.ok (mfpRecord pwTwo dfGrow 0 2 (trOf [1, 2, 4])) ∧
    (sliceDF dfGrow 0 2).isEmpty = false ∧
    (mfpRecord pwTwo dfGrow 0 2 (trOf [1, 2, 4])).annualized_return.val? 0 =
      some (annOf pwTwo ((sliceDF dfGrow 0 2).dates.length : ℚ) [1, 2, 4]) ∧
    (mfpRecord pwTwo dfGrow 0 2 (trOf [1, 2, 4])).volatility.val? 0 =
      some (volOf [1, 2, 4]) ∧
    (mfpRecord pwTwo dfGrow 0 2 (trOf [1, 2, 4])).sharpe_ratio.val? 0 =
      some (RV.div
        (annOf pwTwo ((sliceDF dfGrow 0 2).dates.length : ℚ) [1, 2, 4])
        (volOf [1, 2, 4])) ∧
    (RV.div (annOf pwTwo ((sliceDF dfGrow 0 2).dates.length : ℚ) [1, 2, 4])
        (volOf [1, 2, 4]) =
      RV.div (annOf pwTwo ((sliceDF dfGrow 0 2).dates.length : ℚ) [1, 2, 4])
        (volOf [1, 2, 4]) ∧
     ((volOf [1, 2, 4]).eqZero = true →
       (RV.div (annOf pwTwo ((sliceDF dfGrow 0 2).dates.length : ℚ) [1, 2, 4])
           (volOf [1, 2, 4]) = RV.nan ↔
        (annOf pwTwo ((sliceDF dfGrow 0 2).dates.length : ℚ) [1, 2, 4] = RV.nan ∨
         (annOf pwTwo
            ((sliceDF dfGrow 0 2).dates.length : ℚ) [1, 2, 4]).eqZero = true)))) :=
  ⟨rfl, rfl, rfl, rfl, rfl,
    sharpe_is_ieee_div pwTwo dfGrow 0 2
      (mfpRecord pwTwo dfGrow 0 2 (trOf [1, 2, 4])) rfl rfl 0 _ _ _ rfl rfl rfl⟩

/-- C8: the Sortino ratio is Missing when the downside sample is
empty or its annualized deviation is exactly zero, and is otherwise the
IEEE division of the annualized return by the downside deviation (which
propagates Missing for a one-element downside sample); an all-positive
return column forces a Missing Sortino ratio, while its Sharpe entry is a
finite number whenever the return sample has at least two observations of
nonzero variance and the power produced a finite float. -/
theorem sortino_missing_policy (pw : ℚ → ℚ → FV) (df : DF) (s e : ℤ)
    (rec : MetricsDict) (h : metricsForPeriod pw df s e = Except.ok rec)
    (hne : (sliceDF df s e).isEmpty = false) (i : Nat) (nm : String)
    (ps : List ℚ) (hc : (sliceDF df s e).cols.get? i = some (nm, ps))
    (sv : RV) (hs : rec.sortino_ratio.val? i = some sv) :
    ((retsCol ps).filter (fun r => decide (r < 0)) = [] → sv = RV.nan) ∧
    ((annStdRV ((retsCol ps).filter (fun r => decide (r < 0)))).eqZero = true →
      sv = RV.nan) ∧
    ((annStdRV ((retsCol ps).filter (fun r => decide (r < 0)))).eqZero = false →
      sv = RV.div (annOf pw ((sliceDF df s e).dates.length : ℚ) ps)
            (annStdRV ((retsCol ps).filter (fun r => decide (r < 0))))) ∧
    ((∀ r ∈ retsCol ps, 0 < r) → sv = RV.nan) ∧
    (∀ svh : RV, rec.sharpe_ratio.val? i = some svh →
      2 ≤ (retsCol ps).length → sampleVar (retsCol ps) ≠ 0 →
      ∀ q : ℚ,
        pw (1 + trOf ps) (252 / ((sliceDF df s e).dates.length : ℚ)) =
          FV.num q →
        ∃ a b : ℚ, svh = RV.sq a b) := by
  obtain ⟨trB, _, rfl⟩ := metricsForPeriod_ok_shape pw df s e rec h hne
  have hsv : sv = sortinoOf pw ((sliceDF df s e).dates.length : ℚ) ps := by
    simp only [mfpRecord] at hs
    rw [seriesMap_val?] at hs
    rw [hc] at hs
    simp only [Option.map_some', Option.some.injEq] at hs
    exact hs.symm
  have hnanplan : ∀ A : RV, RV.div A RV.nan = RV.nan := div_nan_right
  refine ⟨?_, ?_, ?_, ?_, ?_⟩
  · intro hempty
    rw [hsv]
    unfold sortinoOf
    simp only [hempty]
    have hstd : annStdRV ([] : List ℚ) = RV.nan := rfl
    rw [hstd]
    simp only [RV.eqZero, Bool.false_eq_true, if_false]
    exact hnanplan _
  · intro hz
    rw [hsv]
    unfold sortinoOf
    simp only [hz, if_true]
  · intro hz
    rw [hsv]
    unfold sortinoOf
    simp only [hz, Bool.false_eq_true, if_false]
  · intro hallpos
    have hempty : (retsCol ps).filter (fun r => decide (r < 0)) = [] := by
      apply List.filter_eq_nil.mpr
      intro r hr
      simp only [decide_eq_true_eq]
      exact not_lt.mpr (le_of_lt (hallpos r hr))
    rw [hsv]
    unfold sortinoOf
    simp only [hempty]
    have hstd : annStdRV ([] : List ℚ) = RV.nan := rfl
    rw [hstd]
    simp only [RV.eqZero, Bool.false_eq_true, if_false]
    exact hnanplan _
  · intro svh hsh hlen hvar q hq
    have hsvh : svh = RV.div
        (annOf pw ((sliceDF df s e).dates.length : ℚ) ps) (volOf ps) := by
      simp only [mfpRecord] at hsh
      rw [seriesMap_val?] at hsh
      rw [hc] at hsh
      simp only [Option.map_some', Option.some.injEq] at hsh
      exact hsh.symm
    have hannq : annOf pw ((sliceDF df s e).dates.length : ℚ) ps =
        RV.sq (q - 1) 1 := by
      unfold annOf
      rw [hq]
      rfl
    have hvol : volOf ps = RV.sq 1 (252 * sampleVar (retsCol ps)) := by
      unfold volOf annStdRV
      rw [if_neg (by omega)]
    rw [hsvh, hannq, hvol]
    refine ⟨(q - 1) / (1 * (252 * sampleVar (retsCol ps))),
      1 * (252 * sampleVar (retsCol ps)), ?_⟩
    simp only [RV.div]
    rw [if_neg]
    push_neg
    constructor
    · norm_num
    · intro hzz
      exact hvar (by linarith [mul_eq_zero.mp hzz])

/-- Witness for C8 at a concrete input: all-positive daily returns give a
Missing Sortino ratio while the Sharpe entry is a finite number. -/
theorem sortino_missing_policy_witness :
    metricsForPeriod pwTwo dfPos 0 2 =
      Except.ok (mfpRecord pwTwo dfPos 0 2 (trOf [1, 2, 8])) ∧
    (sliceDF dfPos 0 2).isEmpty = false ∧
    (sliceDF dfPos 0 2).cols.get? 0 = some (benchTicker, [1, 2, 8]) ∧
    (mfpRecord pwTwo dfPos 0 2 (trOf [1, 2, 8])).sortino_ratio.val? 0 =
      some (sortinoOf pwTwo ((sliceDF dfPos 0 2).dates.length : ℚ) [1, 2, 8]) ∧
    (∀ r ∈ retsCol [1, 2, 8], 0 < r) ∧
    sortinoOf pwTwo ((sliceDF dfPos 0 2).dates.length : ℚ) [1, 2, 8] =
      RV.nan ∧
    (∃ a b : ℚ,
      RV.div (annOf pwTwo ((sliceDF dfPos 0 2).dates.length : ℚ) [1, 2, 8])
        (volOf [1, 2, 8]) = RV.sq a b) := by
  have hall : ∀ r ∈ retsCol [1, 2, 8], (0 : ℚ) < r := by norm_num [retsCol]
  refine ⟨rfl, rfl, rfl, rfl, hall, ?_, ?_⟩
  · exact (sortino_missing_policy pwTwo dfPos 0 2
      (mfpRecord pwTwo dfPos 0 2 (trOf [1, 2, 8])) rfl rfl 0 benchTicker
      [1, 2, 8] rfl _ rfl).2.2.2.1 hall
  · exact (sortino_missing_policy pwTwo dfPos 0 2
      (mfpRecord pwTwo dfPos 0 2 (trOf [1, 2, 8])) rfl rfl 0 benchTicker
      [1, 2, 8] rfl _ rfl).2.2.2.2
      (RV.div (annOf pwTwo ((sliceDF dfPos 0 2).dates.length : ℚ) [1, 2, 8])
        (volOf [1, 2, 8])) rfl (by decide)
      (by norm_num [retsCol, sampleVar, s2, sCross, listMean]) 2 rfl

/-- Witness for C3 at a concrete input. -/
theorem cumulative_reinvestment_identity_witness :
    dfGrow.cols.get? 0 = some (benchTicker, [1, 2, 4]) ∧
    ([1, 2, 4] : List ℚ) ≠ [] ∧ (∀ p ∈ ([1, 2, 4] : List ℚ), 0 < p) ∧
    ((calculateCumulativeReturns (calculateDailyReturns dfGrow)).cols.get? 0 =
        some (benchTicker, cumCol (dailyCol [1, 2, 4])) ∧
     (cumCol (dailyCol [1, 2, 4])).getLast? =
        some (([1, 2, 4] : List ℚ).getLastD 0 /
              ([1, 2, 4] : List ℚ).headD 0 - 1)) :=
  ⟨rfl, by simp, by norm_num,
    cumulative_reinvestment_identity dfGrow 0 benchTicker [1, 2, 4] rfl
      (by simp) (by norm_num)⟩

